import Mathlib

/-!
Shallow embedding of the secure text client (`client.py`): the receive path
of `_process_incoming_events` / `write_to_file`, the handshake reads of
`create_connection`, the send paths `send` / `send_file`, the event
registration table, and the raw RSA sign/verify arithmetic.

Byte streams are modelled as `List ℕ` (one ℕ per byte); `reader.read(n)`
on a stream that may close mid-frame returns up to `n` bytes, i.e.
`take n` / `drop n`.  The symmetric cipher, the JSON header codec and the
SHA-512 digest are external to `client.py` and enter the model as function
parameters, so every theorem below holds for an arbitrary cipher, header
codec and digest function.
-/

namespace SecureClient

/-- Chunk size for streamed transfers (`CHUNK = 1024` in client.py). -/
def CHUNK : ℕ := 1024

/-- Streaming threshold (`BUFFER_LIMIT = 256 * 1024 * 1024` in client.py). -/
def BUFFER_LIMIT : ℕ := 256 * 1024 * 1024

/-- Delivery mode of a payload (`DataMode` in client.py): `FILE` spools to a
temporary file, `BYTES` buffers fully in memory. -/
inductive DataMode where
  | FILE
  | BYTES
deriving DecidableEq, Repr

/-- Errors of the modelled paths: `connectionError` is Python's
`ConnectionError`; `headerError` models a `json.loads` failure on the
decrypted header; `keyImportError` models `RSA.import_key` rejecting its
input during the handshake. -/
inductive ClientError where
  | connectionError
  | headerError
  | keyImportError
deriving DecidableEq, Repr

/-- `int.from_bytes(l, 'big')`. -/
def fromBytesBE (l : List ℕ) : ℕ :=
  l.foldl (fun acc b => acc * 256 + b) 0

/-- `x.to_bytes(w, 'big')` (big-endian, fixed width `w`). -/
def toBytesBE : ℕ → ℕ → List ℕ
  | 0, _ => []
  | w + 1, x => toBytesBE w (x / 256) ++ [x % 256]

/-- `await reader.read(n)`: up to `n` bytes and the rest of the stream. -/
def streamRead (n : ℕ) (s : List ℕ) : List ℕ × List ℕ :=
  (s.take n, s.drop n)

/-- A read at a checked point of the receive path: `data = await
reader.read(n)` followed by `if len(data) != n: raise ConnectionError`. -/
def readExact (n : ℕ) (s : List ℕ) : Except ClientError (List ℕ × List ℕ) :=
  if (s.take n).length = n then Except.ok (s.take n, s.drop n)
  else Except.error ClientError.connectionError

/-- The event registration table `self.events`, keyed by event name.  Only
the registered delivery mode matters to the modelled control flow; the
handler itself is opaque. -/
def EventTable : Type := String → Option DataMode

/-- `self.events[name] = (wrapper, data_mode)`: insert or overwrite. -/
def registerEvent (tbl : EventTable) (name : String) (mode : DataMode) : EventTable :=
  fun k => if k = name then some mode else tbl k

/-- The table right after `Client.__init__`: the constructor registers the
default `disconnect` handler through `@self.event()` (mode defaults to
`DataMode.BYTES`). -/
def initClientEvents : EventTable :=
  registerEvent (fun _ => none) "disconnect" DataMode.BYTES

/-- A sequence of later `event(...)` registration calls, applied in order. -/
def applyRegistrations (tbl : EventTable) (regs : List (String × DataMode)) : EventTable :=
  regs.foldl (fun t r => registerEvent t r.1 r.2) tbl

/-- Routing chosen for one inbound frame: which handler tuple
`self.events.get(...)` produced (`isDefault` = the `default_event` no-op
fallback was used) and the delivery mode. -/
structure Routing where
  isDefault : Bool
  mode : DataMode
deriving DecidableEq, Repr

/-- `self.events.get(data['event'], (default_event, DataMode.FILE if
data_len > BUFFER_LIMIT else DataMode.BYTES))`. -/
def routeEvent (events : EventTable) (name : String) (dataLen : ℕ) : Routing :=
  match events name with
  | some m => { isDefault := false, mode := m }
  | none =>
      { isDefault := true
        mode := if dataLen > BUFFER_LIMIT then DataMode.FILE else DataMode.BYTES }

/-- Raw textbook RSA signing, `pow(hsh, d, n)` in `send` / `send_file`. -/
def rawSign (d n digest : ℕ) : ℕ := digest ^ d % n

/-- Raw RSA verification, `pow(signature, e, n)` in
`_process_incoming_events`. -/
def rawVerify (e n sig : ℕ) : ℕ := sig ^ e % n

/-- Environment of the receive loop: the session cipher's `decrypt`, the
JSON header decoder (`json.loads` + field projection, `none` on a decode
failure), the SHA-512-digest-as-integer of a plaintext, the server public
key `(e, n)` and the registration table. -/
structure RecvEnv where
  decrypt : List ℕ → List ℕ → List ℕ
  parseHeader : List ℕ → Option (String × ℕ)
  hash : List ℕ → ℕ
  e : ℕ
  n : ℕ
  events : EventTable

/-- `write_to_file` (client.py lines 56-75): read the payload in
`min(remaining, CHUNK)`-byte pieces, raising `ConnectionError` on any short
chunk read, decrypting each chunk and accumulating the plaintext (the code
writes it to the temp file and feeds the running SHA-512). -/
def writeToFile (decrypt : List ℕ → List ℕ → List ℕ) (iv : List ℕ)
    (remaining : ℕ) (s : List ℕ) : Except ClientError (List ℕ × List ℕ) :=
  if remaining = 0 then Except.ok ([], s)
  else
    if (s.take (min remaining CHUNK)).length = min remaining CHUNK then
      match writeToFile decrypt iv (remaining - min remaining CHUNK)
          (s.drop (min remaining CHUNK)) with
      | Except.error er => Except.error er
      | Except.ok (pl, s') => Except.ok (decrypt (s.take (min remaining CHUNK)) iv ++ pl, s')
    else Except.error ClientError.connectionError
termination_by remaining
decreasing_by
  simp only [CHUNK]
  omega

/-- Result of one fully consumed iteration of the receive loop.  Reaching
this value models the tail of the loop body: the code then unconditionally
runs `asyncio.ensure_future(event_coroutine(buffer))`, so an `Except.ok`
carrying a `FrameResult` means the frame IS dispatched to its handler. -/
structure FrameResult where
  event : String
  isDefaultHandler : Bool
  mode : DataMode
  plaintext : List ℕ
  digest : ℕ
  sigValue : ℕ
  hashFromSign : ℕ
  sigMatch : Bool
  rest : List ℕ
deriving DecidableEq, Repr

/-- Tail of one loop iteration (client.py lines 189-209): read the
signature with `await self.reader.read(2048)` — the source performs NO
length check here — interpret it big-endian, verify with
`pow(signature, e, n)`, compare with the plaintext digest, and dispatch. -/
def finishFrame (env : RecvEnv) (ev : String) (r : Routing)
    (plain : List ℕ) (s : List ℕ) : Except ClientError FrameResult :=
  Except.ok
    { event := ev
      isDefaultHandler := r.isDefault
      mode := r.mode
      plaintext := plain
      digest := env.hash plain
      sigValue := fromBytesBE (s.take 2048)
      hashFromSign := rawVerify env.e env.n (fromBytesBE (s.take 2048))
      sigMatch := env.hash plain == rawVerify env.e env.n (fromBytesBE (s.take 2048))
      rest := s.drop 2048 }

/-- Payload phase of one loop iteration (client.py lines 174-187). -/
def processPayload (env : RecvEnv) (iv : List ℕ) (ev : String) (r : Routing)
    (dataLen : ℕ) (s : List ℕ) : Except ClientError FrameResult :=
  match r.mode with
  | DataMode.BYTES =>
      match readExact dataLen s with
      | Except.error er => Except.error er
      | Except.ok (buf, s') => finishFrame env ev r (env.decrypt buf iv) s'
  | DataMode.FILE =>
      match writeToFile env.decrypt iv dataLen s with
      | Except.error er => Except.error er
      | Except.ok (plain, s') => finishFrame env ev r plain s'

/-- Header phase of one loop iteration (client.py lines 156-169): read
exactly `hdrLen` bytes, decrypt, decode the JSON header, route the event. -/
def processHeader (env : RecvEnv) (iv : List ℕ) (hdrLen : ℕ) (s : List ℕ) :
    Except ClientError FrameResult :=
  match readExact hdrLen s with
  | Except.error er => Except.error er
  | Except.ok (encHdr, s') =>
      match env.parseHeader (env.decrypt encHdr iv) with
      | none => Except.error ClientError.headerError
      | some (ev, dataLen) =>
          processPayload env iv ev (routeEvent env.events ev dataLen) dataLen s'

/-- One full iteration of `_process_incoming_events` (client.py lines
141-209): 16-byte IV, 16-byte encrypted length field, header, payload,
signature, dispatch. -/
def processOneFrame (env : RecvEnv) (s : List ℕ) : Except ClientError FrameResult :=
  match readExact 16 s with
  | Except.error er => Except.error er
  | Except.ok (iv, s1) =>
      match readExact 16 s1 with
      | Except.error er => Except.error er
      | Except.ok (encLenF, s2) =>
          processHeader env iv (fromBytesBE (env.decrypt encLenF iv)) s2

/-- Fuel-indexed receive loop (`while True:` of `_process_incoming_events`):
dispatch frames until an exception ends the loop, returning the dispatched
event names in order and the terminating error.  A successful iteration
consumes at least 32 bytes (`processOneFrame_rest_lt` below), so fuel
`s.length + 1` never runs out; `processIncomingEvents_unfold` certifies
that the fuelled function satisfies the intended recursion verbatim. -/
def processIncomingEventsAux (env : RecvEnv) : ℕ → List ℕ → List String × ClientError
  | 0, _ => ([], ClientError.connectionError)
  | fuel + 1, s =>
      match processOneFrame env s with
      | Except.error er => ([], er)
      | Except.ok r =>
          let p := processIncomingEventsAux env fuel r.rest
          (r.event :: p.1, p.2)

/-- `await self._process_incoming_events()` on a (finite) input stream. -/
def processIncomingEvents (env : RecvEnv) (s : List ℕ) : List String × ClientError :=
  processIncomingEventsAux env (s.length + 1) s

/-- The `reader` / `writer` handle pair of a `Client`. -/
structure ClientHandles where
  reader : Option Unit
  writer : Option Unit
deriving DecidableEq, Repr

/-- The `try / except ConnectionError / finally` around the receive loop in
`create_connection` (client.py lines 123-134): on `ConnectionError` the
registered `disconnect` handler is scheduled (one more dispatch, appended
to the loop's dispatch log), any other exception propagates (third
component); the `finally` block closes the writer and sets both handles to
`None` in every case. -/
def createConnectionRun (env : RecvEnv) (s : List ℕ) (st : ClientHandles) :
    List String × ClientHandles × Option ClientError :=
  match processIncomingEvents env s with
  | (log, ClientError.connectionError) =>
      (log ++ ["disconnect"], { reader := none, writer := none }, none)
  | (log, er) => (log, { reader := none, writer := none }, some er)

/-- The two handshake reads of `create_connection` (client.py lines
108-109): `key_len = int.from_bytes(await reader.read(8), 'big')` and
`RSA.import_key(await reader.read(key_len))`.  The source checks neither
byte count; `importKey` models `RSA.import_key`, returning `none` when it
rejects its input (a `ValueError` in Python, modelled `keyImportError`). -/
def handshakeReceiveServerKey (importKey : List ℕ → Option ℕ) (s : List ℕ) :
    Except ClientError (ℕ × List ℕ) :=
  let p1 := streamRead 8 s
  let keyLen := fromBytesBE p1.1
  let p2 := streamRead keyLen p1.2
  match importKey p2.1 with
  | none => Except.error ClientError.keyImportError
  | some k => Except.ok (k, p2.2)

/-- `true` iff an `Except` value is the `ConnectionError` outcome. -/
def exceptIsConnectionError {α : Type} : Except ClientError α → Bool
  | Except.error ClientError.connectionError => true
  | _ => false

/-- How the dispatch wrapper built by `Client.event` hands the decoded
payload to the registered handler function. -/
inductive HandlerArg (α : Type) where
  | noArg
  | text (s : String)
  | raw (d : α)
deriving DecidableEq, Repr

/-- The `reserved_events` adaptation inside the wrapper of `Client.event`
(client.py lines 219-227): a dict from reserved names to thunks, queried
with `.get(event_name, lambda: func(data))`.  `α` is the decoded payload
type (bytes or a temp-file handle); `decode` models
`data.decode(encoding='utf-8')`. -/
def reservedAdapt {α : Type} (decode : α → String) (event_name : String) (data : α) :
    HandlerArg α :=
  (List.lookup event_name
      [("connect", HandlerArg.noArg),
       ("disconnect", HandlerArg.noArg),
       ("pong", HandlerArg.noArg),
       ("message", HandlerArg.text (decode data))]).getD
    (HandlerArg.raw data)

/-- Environment of the send paths: the session cipher's `encrypt`, the
SHA-512-digest-as-integer function, the JSON header encoder
(`json.dumps({'event': ..., 'data_length': ...}).encode()`), and the
client private key `(d, n)`. -/
structure SendEnv where
  encrypt : List ℕ → List ℕ → List ℕ
  hash : List ℕ → ℕ
  headerEncode : String → ℕ → List ℕ
  d : ℕ
  n : ℕ

/-- The byte segments written to the stream for one outbound frame. -/
structure SentFrame where
  iv : List ℕ
  encryptedLength : List ℕ
  encryptedHeader : List ℕ
  payloadCipher : List ℕ
  signatureBytes : List ℕ

/-- `Client.send` (client.py lines 236-265): the declared `data_length` is
the ciphertext length; the signature is `pow(int.from_bytes(sha512(data)
.digest(), 'big'), d, n)` over the plaintext `data`, serialized to 2048
bytes. -/
def send (env : SendEnv) (iv : List ℕ) (event : String) (data : List ℕ) : SentFrame :=
  let encData := env.encrypt data iv
  let header := env.headerEncode event encData.length
  let encHeader := env.encrypt header iv
  { iv := iv
    encryptedLength := env.encrypt (toBytesBE 8 encHeader.length) iv
    encryptedHeader := encHeader
    payloadCipher := encData
    signatureBytes := toBytesBE 2048 (rawSign env.d env.n (env.hash data)) }

/-- The `data_length` field `send_file` declares in its header:
`data_size + padding_len` with `padding_len = 16 - data_size % 16`
(client.py lines 275-279). -/
def sendFileDeclaredLength (dataSize : ℕ) : ℕ :=
  dataSize + (16 - dataSize % 16)

/-- The `f.read(1024)`-until-empty loop of `send_file`: the file contents
split into 1024-byte chunks (the last one may be shorter). -/
def fileChunks (l : List ℕ) : List (List ℕ) :=
  if l = [] then []
  else l.take CHUNK :: fileChunks (l.drop CHUNK)
termination_by l.length
decreasing_by
  rename_i h
  simp only [List.length_drop, CHUNK]
  have : l.length ≠ 0 := fun h0 => h (List.eq_nil_of_length_eq_zero h0)
  omega

/-- `Client.send_file` (client.py lines 267-308): declares
`sendFileDeclaredLength`, then per 1024-byte chunk feeds the plaintext to
the running SHA-512 (`file_hash.update(data)`) and writes the chunk's
ciphertext; finally signs the accumulated plaintext digest with
`pow(hsh, d, n)` and writes it as 2048 bytes. -/
def sendFile (env : SendEnv) (iv : List ℕ) (event : String) (contents : List ℕ) :
    SentFrame :=
  let header := env.headerEncode event (sendFileDeclaredLength contents.length)
  let encHeader := env.encrypt header iv
  let hashed := (fileChunks contents).foldl (fun acc c => acc ++ c) []
  { iv := iv
    encryptedLength := env.encrypt (toBytesBE 8 encHeader.length) iv
    encryptedHeader := encHeader
    payloadCipher := (fileChunks contents).foldl (fun acc c => acc ++ env.encrypt c iv) []
    signatureBytes := toBytesBE 2048 (rawSign env.d env.n (env.hash hashed)) }

/-! Concrete instances used to exercise the model on closed inputs: an
identity cipher, a two-shape header codec, a tiny key and a small
registration table. -/

/-- A concrete symmetric decryption: the identity on the ciphertext. -/
def cDecrypt : List ℕ → List ℕ → List ℕ := fun c _ => c

/-- A concrete header codec: `[a]` decodes to event `"view"` with declared
length `a`; `a :: _ :: _` decodes to event `"big"` with declared length
`a`; the empty header fails to decode. -/
def cParseHeader : List ℕ → Option (String × ℕ)
  | [a] => some ("view", a)
  | a :: _ :: _ => some ("big", a)
  | [] => none

/-- A concrete registration table: only `"big"` is registered, in
streamed (`FILE`) mode. -/
def cEvents : EventTable :=
  fun k => if k = "big" then some DataMode.FILE else none

/-- A concrete receive environment over `cDecrypt` / `cParseHeader` /
`cEvents`, hashing with `fromBytesBE` and verifying with the
(public-exponent, modulus) pair `(3, 15)`. -/
def cEnv : RecvEnv :=
  { decrypt := cDecrypt
    parseHeader := cParseHeader
    hash := fromBytesBE
    e := 3
    n := 15
    events := cEvents }

/-- A concrete `RSA.import_key` model: rejects the empty byte string
(as the real import of zero bytes does), accepts anything else. -/
def cImportKey : List ℕ → Option ℕ :=
  fun l => if l = [] then none else some (fromBytesBE l)

/-! ### Helper lemmas about the embedded operations -/

/-- A checked read succeeds exactly when the requested bytes are there. -/
theorem readExact_append {n : ℕ} {b r : List ℕ} (h : b.length = n) :
    readExact n (b ++ r) = Except.ok (b, r) := by
  subst h
  simp [readExact]

/-- A checked read on a stream with fewer bytes than requested raises
`ConnectionError`. -/
theorem readExact_short {n : ℕ} {s : List ℕ} (h : s.length < n) :
    readExact n s = Except.error ClientError.connectionError := by
  unfold readExact
  rw [if_neg]
  simp only [List.length_take]
  omega

/-- `write_to_file` raises `ConnectionError` whenever the stream holds
fewer bytes than the declared payload length. -/
theorem writeToFile_short (decrypt : List ℕ → List ℕ → List ℕ) (iv : List ℕ) :
    ∀ remaining s, s.length < remaining →
      writeToFile decrypt iv remaining s = Except.error ClientError.connectionError := by
  intro remaining
  induction remaining using Nat.strong_induction_on with
  | _ remaining ih =>
    intro s hs
    rw [writeToFile]
    rw [if_neg (by omega)]
    by_cases hc : min remaining CHUNK ≤ s.length
    · rw [if_pos (by simp only [List.length_take]; omega)]
      rw [ih (remaining - min remaining CHUNK)
            (by simp only [CHUNK] at hs ⊢; omega)
            (s.drop (min remaining CHUNK))
            (by simp only [List.length_drop]; omega)]
    · rw [if_neg (by simp only [List.length_take]; omega)]

/-- Left fold of `++` starting from `acc` is `acc ++` the join. -/
theorem foldl_append_eq_join (L : List (List ℕ)) :
    ∀ acc : List ℕ, L.foldl (fun a c => a ++ c) acc = acc ++ L.flatten := by
  induction L with
  | nil => intro acc; simp
  | cons c L ih => intro acc; simp [ih, List.append_assoc]

/-- The 1024-byte chunks produced by the `send_file` read loop reassemble
to the original file contents. -/
theorem fileChunks_join : ∀ l : List ℕ, (fileChunks l).flatten = l := by
  have H : ∀ n l, List.length l ≤ n → (fileChunks l).flatten = l := by
    intro n
    induction n with
    | zero =>
      intro l hl
      have hnil : l = [] := List.eq_nil_of_length_eq_zero (by omega)
      subst hnil
      rw [fileChunks]
      simp
    | succ n ih =>
      intro l hl
      rw [fileChunks]
      by_cases h : l = []
      · simp [h]
      · rw [if_neg h]
        have hpos : 0 < l.length := List.length_pos.mpr h
        simp only [List.flatten_cons]
        rw [ih (l.drop CHUNK) (by simp only [List.length_drop, CHUNK]; omega)]
        exact List.take_append_drop CHUNK l
  intro l
  exact H l.length l le_rfl

/-- Inversion of a successful checked read. -/
theorem readExact_ok {n : ℕ} {s b s' : List ℕ}
    (h : readExact n s = Except.ok (b, s')) :
    b = s.take n ∧ s' = s.drop n ∧ n ≤ s.length := by
  unfold readExact at h
  by_cases hc : (s.take n).length = n
  · rw [if_pos hc] at h
    simp only [Except.ok.injEq, Prod.mk.injEq] at h
    refine ⟨h.1.symm, h.2.symm, ?_⟩
    simp only [List.length_take] at hc
    omega
  · rw [if_neg hc] at h
    exact absurd h (by simp)

/-- `finishFrame` always succeeds and leaves the stream after the (up to)
2048 signature bytes. -/
theorem finishFrame_rest {env : RecvEnv} {ev : String} {r : Routing}
    {plain s : List ℕ} {fr : FrameResult}
    (h : finishFrame env ev r plain s = Except.ok fr) : fr.rest = s.drop 2048 := by
  unfold finishFrame at h
  simp only [Except.ok.injEq] at h
  rw [← h]

/-- A successful chunked payload read never lengthens the stream. -/
theorem writeToFile_rest_le (decrypt : List ℕ → List ℕ → List ℕ) (iv : List ℕ) :
    ∀ (remaining : ℕ) (s pl s' : List ℕ),
      writeToFile decrypt iv remaining s = Except.ok (pl, s') →
      s'.length ≤ s.length := by
  intro remaining
  induction remaining using Nat.strong_induction_on with
  | _ remaining ih =>
    intro s pl s' h
    rw [writeToFile] at h
    by_cases h0 : remaining = 0
    · rw [if_pos h0] at h
      simp only [Except.ok.injEq, Prod.mk.injEq] at h
      rw [← h.2]
    · rw [if_neg h0] at h
      by_cases hc : (s.take (min remaining CHUNK)).length = min remaining CHUNK
      · rw [if_pos hc] at h
        rcases hw : writeToFile decrypt iv (remaining - min remaining CHUNK)
            (s.drop (min remaining CHUNK)) with er | pr
        · rw [hw] at h
          exact absurd h (by simp)
        · rcases pr with ⟨pl2, s2⟩
          rw [hw] at h
          simp only [Except.ok.injEq, Prod.mk.injEq] at h
          have hle := ih (remaining - min remaining CHUNK)
            (by simp only [CHUNK]; omega) (s.drop (min remaining CHUNK)) pl2 s2 hw
          rw [← h.2]
          simp only [List.length_drop] at hle
          omega
      · rw [if_neg hc] at h
        exact absurd h (by simp)

/-- A dispatched payload phase never lengthens the stream. -/
theorem processPayload_rest_le {env : RecvEnv} {iv : List ℕ} {ev : String}
    {r : Routing} {dataLen : ℕ} {s : List ℕ} {fr : FrameResult}
    (h : processPayload env iv ev r dataLen s = Except.ok fr) :
    fr.rest.length ≤ s.length := by
  unfold processPayload at h
  rcases hm : r.mode with _ | _ <;> rw [hm] at h
  · rcases hw : writeToFile env.decrypt iv dataLen s with er | pr
    · rw [hw] at h
      exact absurd h (by simp)
    · rcases pr with ⟨pl, s2⟩
      rw [hw] at h
      have h2 := writeToFile_rest_le env.decrypt iv dataLen s pl s2 hw
      rw [finishFrame_rest h]
      simp only [List.length_drop]
      omega
  · rcases hre : readExact dataLen s with er | pr
    · rw [hre] at h
      exact absurd h (by simp)
    · rcases pr with ⟨buf, s2⟩
      rw [hre] at h
      obtain ⟨_, hs2, _⟩ := readExact_ok hre
      rw [finishFrame_rest h, hs2]
      simp only [List.length_drop]
      omega

/-- A dispatched header phase never lengthens the stream. -/
theorem processHeader_rest_le {env : RecvEnv} {iv : List ℕ} {hdrLen : ℕ}
    {s : List ℕ} {fr : FrameResult}
    (h : processHeader env iv hdrLen s = Except.ok fr) :
    fr.rest.length ≤ s.length := by
  unfold processHeader at h
  rcases hre : readExact hdrLen s with er | pr
  · simp [hre] at h
  · rcases pr with ⟨encHdr, s2⟩
    simp only [hre] at h
    obtain ⟨_, hs2, _⟩ := readExact_ok hre
    rcases hph : env.parseHeader (env.decrypt encHdr iv) with _ | evP
    · simp [hph] at h
    · rcases evP with ⟨ev, dataLen⟩
      simp only [hph] at h
      have h2 := processPayload_rest_le h
      rw [hs2] at h2
      simp only [List.length_drop] at h2
      omega

/-- Every dispatched frame strictly consumes stream bytes (at least the
two checked 16-byte reads), so the receive loop on a finite stream
terminates. -/
theorem processOneFrame_rest_lt {env : RecvEnv} {s : List ℕ} {fr : FrameResult}
    (h : processOneFrame env s = Except.ok fr) : fr.rest.length < s.length := by
  unfold processOneFrame at h
  rcases h1 : readExact 16 s with er | p1
  · simp [h1] at h
  · rcases p1 with ⟨iv, s1⟩
    simp only [h1] at h
    obtain ⟨_, hs1, hlen1⟩ := readExact_ok h1
    rcases h2 : readExact 16 s1 with er | p2
    · simp [h2] at h
    · rcases p2 with ⟨encLenF, s2⟩
      simp only [h2] at h
      obtain ⟨_, hs2, hlen2⟩ := readExact_ok h2
      have h3 := processHeader_rest_le h
      rw [hs2, hs1] at h3
      rw [hs1] at hlen2
      simp only [List.length_drop] at h3 hlen2
      omega

/-- The fuelled loop is fuel-irrelevant once the fuel exceeds the stream
length (each iteration strictly consumes bytes). -/
theorem processIncomingEventsAux_fuel (env : RecvEnv) :
    ∀ (fuel : ℕ) (s : List ℕ), s.length < fuel →
      processIncomingEventsAux env fuel s =
        processIncomingEventsAux env (s.length + 1) s := by
  intro fuel
  induction fuel using Nat.strong_induction_on with
  | _ fuel ih =>
    intro s hs
    rcases fuel with _ | f
    · omega
    simp only [processIncomingEventsAux]
    rcases h : processOneFrame env s with er | r
    · rfl
    · have hlt := processOneFrame_rest_lt h
      dsimp only
      rw [ih f (by omega) r.rest (by omega),
        ih s.length (by omega) r.rest (by omega)]

/-- The fuelled `processIncomingEvents` satisfies the receive loop's
recursion verbatim: dispatch the frame and continue on the remaining
stream, or stop with the loop-terminating error.  This certifies that the
fuel in the definition is an artifact, not a behavioral approximation. -/
theorem processIncomingEvents_unfold (env : RecvEnv) (s : List ℕ) :
    processIncomingEvents env s =
      match processOneFrame env s with
      | Except.error er => ([], er)
      | Except.ok r =>
          (r.event :: (processIncomingEvents env r.rest).1,
            (processIncomingEvents env r.rest).2) := by
  unfold processIncomingEvents
  simp only [processIncomingEventsAux]
  rcases h : processOneFrame env s with er | r
  · rfl
  · have hlt := processOneFrame_rest_lt h
    dsimp only
    rw [processIncomingEventsAux_fuel env s.length r.rest (by omega)]
    simp only [processIncomingEventsAux]

/-- A buffered-mode frame laid out on the stream with arbitrary trailing
signature bytes: the loop reaches the signature/dispatch phase. -/
theorem processOneFrame_ok_BYTES (env : RecvEnv) {iv lenF hdr pay : List ℕ}
    {ev : String} {P : ℕ} (sigB : List ℕ)
    (hiv : iv.length = 16) (hlf : lenF.length = 16)
    (hhdr : hdr.length = fromBytesBE (env.decrypt lenF iv))
    (hph : env.parseHeader (env.decrypt hdr iv) = some (ev, P))
    (hmode : (routeEvent env.events ev P).mode = DataMode.BYTES)
    (hpay : pay.length = P) :
    processOneFrame env (iv ++ (lenF ++ (hdr ++ (pay ++ sigB)))) =
      finishFrame env ev (routeEvent env.events ev P) (env.decrypt pay iv) sigB := by
  simp only [processOneFrame, readExact_append hiv, readExact_append hlf, processHeader,
    readExact_append hhdr, hph, processPayload, hmode, readExact_append hpay]

/-- A streamed-mode frame whose chunked payload read succeeds: the loop
reaches the signature/dispatch phase with the spooled plaintext. -/
theorem processOneFrame_ok_FILE (env : RecvEnv) {iv lenF hdr r pl s' : List ℕ}
    {ev : String} {P : ℕ}
    (hiv : iv.length = 16) (hlf : lenF.length = 16)
    (hhdr : hdr.length = fromBytesBE (env.decrypt lenF iv))
    (hph : env.parseHeader (env.decrypt hdr iv) = some (ev, P))
    (hmode : (routeEvent env.events ev P).mode = DataMode.FILE)
    (hw : writeToFile env.decrypt iv P r = Except.ok (pl, s')) :
    processOneFrame env (iv ++ (lenF ++ (hdr ++ r))) =
      finishFrame env ev (routeEvent env.events ev P) pl s' := by
  simp only [processOneFrame, readExact_append hiv, readExact_append hlf, processHeader,
    readExact_append hhdr, hph, processPayload, hmode, hw]

/-- C1 (amended).  Short-read handling of the receive path: at the four
CHECKED read points — 16-byte IV, 16-byte encrypted length field,
variable-length encrypted header, and the payload in both buffered and
1024-byte-chunked streamed modes — a read returning fewer bytes than
requested raises `ConnectionError` and the frame is not dispatched.  The
2048-byte signature read, by contrast, is NOT length-checked by the
source: however few bytes it returns, the loop still reaches the dispatch
point (last conjunct). -/
theorem receive_short_read_behavior :
    (∀ (env : RecvEnv) (s : List ℕ), s.length < 16 →
        processOneFrame env s = Except.error ClientError.connectionError) ∧
    (∀ (env : RecvEnv) (s : List ℕ), 16 ≤ s.length → s.length < 32 →
        processOneFrame env s = Except.error ClientError.connectionError) ∧
    (∀ (env : RecvEnv) (iv lenF r : List ℕ), iv.length = 16 → lenF.length = 16 →
        r.length < fromBytesBE (env.decrypt lenF iv) →
        processOneFrame env (iv ++ (lenF ++ r)) =
          Except.error ClientError.connectionError) ∧
    (∀ (env : RecvEnv) (iv lenF hdr r : List ℕ) (ev : String) (P : ℕ),
        iv.length = 16 → lenF.length = 16 →
        hdr.length = fromBytesBE (env.decrypt lenF iv) →
        env.parseHeader (env.decrypt hdr iv) = some (ev, P) →
        (routeEvent env.events ev P).mode = DataMode.BYTES →
        r.length < P →
        processOneFrame env (iv ++ (lenF ++ (hdr ++ r))) =
          Except.error ClientError.connectionError) ∧
    (∀ (env : RecvEnv) (iv lenF hdr r : List ℕ) (ev : String) (P : ℕ),
        iv.length = 16 → lenF.length = 16 →
        hdr.length = fromBytesBE (env.decrypt lenF iv) →
        env.parseHeader (env.decrypt hdr iv) = some (ev, P) →
        (routeEvent env.events ev P).mode = DataMode.FILE →
        r.length < P →
        processOneFrame env (iv ++ (lenF ++ (hdr ++ r))) =
          Except.error ClientError.connectionError) ∧
    (∀ (env : RecvEnv) (iv lenF hdr pay sigB : List ℕ) (ev : String) (P : ℕ),
        iv.length = 16 → lenF.length = 16 →
        hdr.length = fromBytesBE (env.decrypt lenF iv) →
        env.parseHeader (env.decrypt hdr iv) = some (ev, P) →
        (routeEvent env.events ev P).mode = DataMode.BYTES →
        pay.length = P →
        (processOneFrame env (iv ++ (lenF ++ (hdr ++ (pay ++ sigB))))).isOk = true) := by
  refine ⟨?_, ?_, ?_, ?_, ?_, ?_⟩
  · intro env s h
    simp only [processOneFrame, readExact_short h]
  · intro env s h16 h32
    have h1 : readExact 16 s = Except.ok (s.take 16, s.drop 16) := by
      unfold readExact
      rw [if_pos]
      simp only [List.length_take]
      omega
    have h2 : readExact 16 (s.drop 16) = Except.error ClientError.connectionError :=
      readExact_short (by simp only [List.length_drop]; omega)
    simp only [processOneFrame, h1, h2]
  · intro env iv lenF r hiv hlf hr
    simp only [processOneFrame, readExact_append hiv, readExact_append hlf, processHeader,
      readExact_short hr]
  · intro env iv lenF hdr r ev P hiv hlf hhdr hph hmode hr
    simp only [processOneFrame, readExact_append hiv, readExact_append hlf, processHeader,
      readExact_append hhdr, hph, processPayload, hmode, readExact_short hr]
  · intro env iv lenF hdr r ev P hiv hlf hhdr hph hmode hr
    simp only [processOneFrame, readExact_append hiv, readExact_append hlf, processHeader,
      readExact_append hhdr, hph, processPayload, hmode,
      writeToFile_short env.decrypt iv P r hr]
  · intro env iv lenF hdr pay sigB ev P hiv hlf hhdr hph hmode hpay
    rw [processOneFrame_ok_BYTES env sigB hiv hlf hhdr hph hmode hpay]
    rfl

/-- C1 witness: each branch of `receive_short_read_behavior` exercised on
a concrete stream over the concrete environment `cEnv`. -/
theorem receive_short_read_behavior_witness :
    processOneFrame cEnv [0] = Except.error ClientError.connectionError ∧
    processOneFrame cEnv (List.replicate 20 0) = Except.error ClientError.connectionError ∧
    processOneFrame cEnv (List.replicate 16 0 ++ ((List.replicate 15 0 ++ [1]) ++ [])) =
      Except.error ClientError.connectionError ∧
    processOneFrame cEnv
        (List.replicate 16 0 ++ ((List.replicate 15 0 ++ [1]) ++ ([5] ++ [1, 2]))) =
      Except.error ClientError.connectionError ∧
    processOneFrame cEnv
        (List.replicate 16 0 ++ ((List.replicate 15 0 ++ [2]) ++ ([5, 0] ++ [7]))) =
      Except.error ClientError.connectionError ∧
    (processOneFrame cEnv
        (List.replicate 16 0 ++
          ((List.replicate 15 0 ++ [1]) ++ ([3] ++ ([7, 8, 9] ++ []))))).isOk = true := by
  refine ⟨?_, ?_, ?_, ?_, ?_, ?_⟩
  · exact receive_short_read_behavior.1 cEnv [0] (by decide)
  · exact receive_short_read_behavior.2.1 cEnv (List.replicate 20 0) (by decide) (by decide)
  · exact receive_short_read_behavior.2.2.1 cEnv (List.replicate 16 0)
      (List.replicate 15 0 ++ [1]) [] (by decide) (by decide) (by decide)
  · exact receive_short_read_behavior.2.2.2.1 cEnv (List.replicate 16 0)
      (List.replicate 15 0 ++ [1]) [5] [1, 2] "view" 5
      (by decide) (by decide) (by decide) (by decide) (by decide) (by decide)
  · exact receive_short_read_behavior.2.2.2.2.1 cEnv (List.replicate 16 0)
      (List.replicate 15 0 ++ [2]) [5, 0] [7] "big" 5
      (by decide) (by decide) (by decide) (by decide) (by decide) (by decide)
  · exact receive_short_read_behavior.2.2.2.2.2 cEnv (List.replicate 16 0)
      (List.replicate 15 0 ++ [1]) [3] [7, 8, 9] [] "view" 3
      (by decide) (by decide) (by decide) (by decide) (by decide) (by decide)

/-- C1 counterexample to the claim as stated: a stream that ends right
after a complete buffered payload.  The signature read returns 0 of the
requested 2048 bytes, yet the result is `Except.ok` — no `ConnectionError`
is raised and the frame IS dispatched (`int.from_bytes(b'', 'big') == 0`
is simply verified against the digest, mismatches, and is only logged). -/
theorem receive_short_read_counterexample :
    processOneFrame cEnv
        (List.replicate 16 0 ++
          ((List.replicate 15 0 ++ [1]) ++ ([3] ++ ([7, 8, 9] ++ [])))) =
      Except.ok
        { event := "view"
          isDefaultHandler := true
          mode := DataMode.BYTES
          plaintext := [7, 8, 9]
          digest := 460809
          sigValue := 0
          hashFromSign := 0
          sigMatch := false
          rest := [] } := by
  rfl

/-- C2 (amended).  The two handshake reads of `create_connection` perform
no byte-count validation: whatever the stream yields — including fewer
bytes than requested at either read — the result is never
`ConnectionError`; the received bytes go straight to RSA key import, whose
rejection surfaces as a key-import failure (`ValueError` in the source),
not as `ConnectionError`. -/
theorem handshake_reads_unchecked :
    ∀ (importKey : List ℕ → Option ℕ) (s : List ℕ),
      exceptIsConnectionError (handshakeReceiveServerKey importKey s) = false := by
  intro ik s
  unfold handshakeReceiveServerKey
  simp only [streamRead]
  cases hk : ik ((s.drop 8).take (fromBytesBE (s.take 8))) <;>
    simp [hk, exceptIsConnectionError]

/-- C2 counterexample to the claim as stated: on a stream that closes
before the 8-byte peer-key length field (0 of 8 bytes arrive), the
handshake does NOT abort with `ConnectionError`; `int.from_bytes(b'')`
yields key length 0 and the failure that finally occurs is the key
import's, not a `ConnectionError`. -/
theorem handshake_short_read_counterexample :
    handshakeReceiveServerKey cImportKey [] =
      Except.error ClientError.keyImportError := by
  rfl

/-- C3.  For every frame that reaches the signature phase (both buffered
and streamed payloads), the loop reads 2048 signature bytes, computes
`pow(signature, e, n)` (`rawVerify`), compares it with the plaintext
SHA-512 digest as a big-endian integer (`sigMatch`), and returns
`Except.ok` — i.e. dispatches the event — REGARDLESS of whether `sigMatch`
holds; a mismatch is only recorded (the source prints a warning), never an
exception. -/
theorem signature_mismatch_still_dispatched :
    (∀ (env : RecvEnv) (iv lenF hdr pay sigB : List ℕ) (ev : String) (P : ℕ),
        iv.length = 16 → lenF.length = 16 →
        hdr.length = fromBytesBE (env.decrypt lenF iv) →
        env.parseHeader (env.decrypt hdr iv) = some (ev, P) →
        (routeEvent env.events ev P).mode = DataMode.BYTES →
        pay.length = P → sigB.length = 2048 →
        processOneFrame env (iv ++ (lenF ++ (hdr ++ (pay ++ sigB)))) =
          Except.ok
            { event := ev
              isDefaultHandler := (routeEvent env.events ev P).isDefault
              mode := DataMode.BYTES
              plaintext := env.decrypt pay iv
              digest := env.hash (env.decrypt pay iv)
              sigValue := fromBytesBE sigB
              hashFromSign := rawVerify env.e env.n (fromBytesBE sigB)
              sigMatch := env.hash (env.decrypt pay iv) ==
                rawVerify env.e env.n (fromBytesBE sigB)
              rest := [] }) ∧
    (∀ (env : RecvEnv) (iv lenF hdr r pl sigB : List ℕ) (ev : String) (P : ℕ),
        iv.length = 16 → lenF.length = 16 →
        hdr.length = fromBytesBE (env.decrypt lenF iv) →
        env.parseHeader (env.decrypt hdr iv) = some (ev, P) →
        (routeEvent env.events ev P).mode = DataMode.FILE →
        writeToFile env.decrypt iv P r = Except.ok (pl, sigB) → sigB.length = 2048 →
        processOneFrame env (iv ++ (lenF ++ (hdr ++ r))) =
          Except.ok
            { event := ev
              isDefaultHandler := (routeEvent env.events ev P).isDefault
              mode := DataMode.FILE
              plaintext := pl
              digest := env.hash pl
              sigValue := fromBytesBE sigB
              hashFromSign := rawVerify env.e env.n (fromBytesBE sigB)
              sigMatch := env.hash pl == rawVerify env.e env.n (fromBytesBE sigB)
              rest := [] }) := by
  constructor
  · intro env iv lenF hdr pay sigB ev P hiv hlf hhdr hph hmode hpay hsig
    rw [processOneFrame_ok_BYTES env sigB hiv hlf hhdr hph hmode hpay]
    unfold finishFrame
    rw [List.take_of_length_le (by omega), List.drop_eq_nil_of_le (by omega), hmode]
  · intro env iv lenF hdr r pl sigB ev P hiv hlf hhdr hph hmode hw hsig
    rw [processOneFrame_ok_FILE env hiv hlf hhdr hph hmode hw]
    unfold finishFrame
    rw [List.take_of_length_le (by omega), List.drop_eq_nil_of_le (by omega), hmode]

/-- C3 witness: both conjuncts at concrete frames over `cEnv`; the first
frame's signature decodes to an integer that does NOT match the digest
(2048 bytes of `0x01` against digest 460809), yet the frame is
dispatched. -/
theorem signature_mismatch_still_dispatched_witness :
    processOneFrame cEnv
        (List.replicate 16 0 ++
          ((List.replicate 15 0 ++ [1]) ++ ([3] ++ ([7, 8, 9] ++ List.replicate 2048 1)))) =
      Except.ok
        { event := "view"
          isDefaultHandler := true
          mode := DataMode.BYTES
          plaintext := [7, 8, 9]
          digest := 460809
          sigValue := fromBytesBE (List.replicate 2048 1)
          hashFromSign := rawVerify 3 15 (fromBytesBE (List.replicate 2048 1))
          sigMatch := 460809 == rawVerify 3 15 (fromBytesBE (List.replicate 2048 1))
          rest := [] } ∧
    processOneFrame cEnv
        (List.replicate 16 0 ++
          ((List.replicate 15 0 ++ [2]) ++ ([0, 0] ++ List.replicate 2048 1))) =
      Except.ok
        { event := "big"
          isDefaultHandler := false
          mode := DataMode.FILE
          plaintext := []
          digest := 0
          sigValue := fromBytesBE (List.replicate 2048 1)
          hashFromSign := rawVerify 3 15 (fromBytesBE (List.replicate 2048 1))
          sigMatch := 0 == rawVerify 3 15 (fromBytesBE (List.replicate 2048 1))
          rest := [] } := by
  constructor
  · exact signature_mismatch_still_dispatched.1 cEnv (List.replicate 16 0)
      (List.replicate 15 0 ++ [1]) [3] [7, 8, 9] (List.replicate 2048 1) "view" 3
      (by decide) (by decide) (by decide) (by decide) (by decide) (by decide)
      (by rw [List.length_replicate])
  · exact signature_mismatch_still_dispatched.2 cEnv (List.replicate 16 0)
      (List.replicate 15 0 ++ [2]) [0, 0] (List.replicate 2048 1) [] (List.replicate 2048 1)
      "big" 0 (by decide) (by decide) (by decide) (by decide) (by decide)
      (by rw [writeToFile]; rfl) (by rw [List.length_replicate])

/-- C4 counterexample to the claim as stated: for a file of size 16 —
already a multiple of 16 — `send_file` declares `16 + (16 - 16 % 16) = 32`,
not 16 as the claim requires. -/
theorem sendFile_declared_length_counterexample :
    sendFileDeclaredLength 16 = 32 ∧ ¬ sendFileDeclaredLength 16 = 16 := by
  decide

/-- C4 (amended).  The `data_length` declared by `send_file` for a file of
size `S` is `S + (16 - S % 16) = 16 * (S / 16 + 1)`: the smallest multiple
of 16 STRICTLY greater than `S`.  For `S` not a multiple of 16 this is the
round-up of the claim; for `S` a multiple of 16 it is `S + 16`, not `S`
(consistent with PKCS#7-style padding, which always adds at least one
byte). -/
theorem sendFile_declared_length_next_multiple :
    ∀ S : ℕ, sendFileDeclaredLength S = 16 * (S / 16 + 1) ∧
      S < sendFileDeclaredLength S ∧ sendFileDeclaredLength S ≤ S + 16 ∧
      sendFileDeclaredLength S % 16 = 0 := by
  intro S
  unfold sendFileDeclaredLength
  omega

/-- For a prime `r` dividing one factor pattern of `(p-1)*(q-1)` and an
exponent product `≡ 1` modulo it, exponentiation fixes every residue
mod `r` (both the `r ∣ m` and the coprime / Fermat-Euler cases). -/
theorem pow_fixes_mod_prime (r s' : ℕ) {m de : ℕ} (hr : Nat.Prime r)
    (hde : 1 ≤ de) (hk : ∃ k, de = (r - 1) * s' * k + 1) :
    m ^ de ≡ m [MOD r] := by
  obtain ⟨k, hkeq⟩ := hk
  by_cases hrm : r ∣ m
  · have h0 : m ≡ 0 [MOD r] := Nat.modEq_zero_iff_dvd.mpr hrm
    have h1 : m ^ de ≡ 0 [MOD r] :=
      Nat.modEq_zero_iff_dvd.mpr (dvd_pow hrm (by omega))
    exact h1.trans h0.symm
  · have hco : Nat.Coprime m r :=
      Nat.Coprime.symm ((Nat.Prime.coprime_iff_not_dvd hr).mpr hrm)
    have heu : m ^ (r - 1) ≡ 1 [MOD r] := by
      have h := Nat.ModEq.pow_totient hco
      rwa [Nat.totient_prime hr] at h
    calc m ^ de = (m ^ (r - 1)) ^ (s' * k) * m := by
          rw [hkeq, pow_succ, ← pow_mul, Nat.mul_assoc]
      _ ≡ 1 ^ (s' * k) * m [MOD r] := Nat.ModEq.mul_right m (heu.pow (s' * k))
      _ = m := by rw [one_pow, one_mul]

/-- C5.  Raw RSA round trip exactly as the code computes it: `send` signs
with `pow(digest, d, n)` (`rawSign`) and the receive loop recovers
`pow(signature, e, n)` (`rawVerify`).  For an RSA key pair — modulus
`n = p * q` a product of two distinct primes, `d` and `e` inverse
exponents modulo the group order `(p-1)*(q-1)` — verification recovers
every digest below the modulus. -/
theorem rawVerify_rawSign_roundtrip :
    ∀ p q d e m : ℕ, Nat.Prime p → Nat.Prime q → p ≠ q →
      d * e ≡ 1 [MOD (p - 1) * (q - 1)] → m < p * q →
      rawVerify e (p * q) (rawSign d (p * q) m) = m := by
  intro p q d e m hp hq hpq hed hm
  have hp2 : 2 ≤ p := hp.two_le
  have hq2 : 2 ≤ q := hq.two_le
  have hN2 : 2 ≤ (p - 1) * (q - 1) := by
    by_cases hp3 : p = 2
    · have hq3 : 3 ≤ q := by
        subst hp3
        omega
      have h1 : 1 ≤ p - 1 := by omega
      have h2 : 2 ≤ q - 1 := by omega
      calc 2 = 1 * 2 := by norm_num
        _ ≤ (p - 1) * (q - 1) := Nat.mul_le_mul h1 h2
    · have h1 : 2 ≤ p - 1 := by omega
      have h2 : 1 ≤ q - 1 := by omega
      calc 2 = 2 * 1 := by norm_num
        _ ≤ (p - 1) * (q - 1) := Nat.mul_le_mul h1 h2
  have hde1 : (d * e) % ((p - 1) * (q - 1)) = 1 := by
    have h := hed
    unfold Nat.ModEq at h
    have h1N : 1 % ((p - 1) * (q - 1)) = 1 := Nat.mod_eq_of_lt (by omega)
    rw [h1N] at h
    exact h
  have hdepos : 1 ≤ d * e := by
    rcases Nat.eq_zero_or_pos (d * e) with h0 | h0
    · rw [h0] at hde1
      simp at hde1
    · exact h0
  obtain ⟨k, hk⟩ : ∃ k, d * e = (p - 1) * (q - 1) * k + 1 := by
    refine ⟨d * e / ((p - 1) * (q - 1)), ?_⟩
    have h := Nat.div_add_mod (d * e) ((p - 1) * (q - 1))
    omega
  have hmp : m ^ (d * e) ≡ m [MOD p] :=
    pow_fixes_mod_prime p (q - 1) hp hdepos ⟨k, hk⟩
  have hmq : m ^ (d * e) ≡ m [MOD q] := by
    have hk' : d * e = (q - 1) * (p - 1) * k + 1 := by
      rw [hk]
      ring
    exact pow_fixes_mod_prime q (p - 1) hq hdepos ⟨k, hk'⟩
  have hcopq : Nat.Coprime p q := (Nat.coprime_primes hp hq).mpr hpq
  have hmn : m ^ (d * e) ≡ m [MOD p * q] :=
    (Nat.modEq_and_modEq_iff_modEq_mul hcopq).mp ⟨hmp, hmq⟩
  unfold rawVerify rawSign
  rw [← Nat.pow_mod, ← pow_mul]
  have h := hmn
  unfold Nat.ModEq at h
  rw [h]
  exact Nat.mod_eq_of_lt hm

/-- C5 witness: the toy key pair `p = 3, q = 5, d = e = 3`
(`3 * 3 = 9 ≡ 1 [MOD 8]`) and digest `7 < 15`: signing then verifying
recovers 7. -/
theorem rawVerify_rawSign_roundtrip_witness :
    rawVerify 3 (3 * 5) (rawSign 3 (3 * 5) 7) = 7 :=
  rawVerify_rawSign_roundtrip 3 5 3 3 7 (by norm_num) (by norm_num) (by decide)
    (by decide) (by decide)

/-- C6.  Argument adaptation of the dispatch wrapper built by
`Client.event`: handlers registered under `connect`, `disconnect` or
`pong` are invoked with no payload argument; a `message` handler receives
the payload decoded as UTF-8 text; a handler under any other name receives
the raw decoded payload unchanged. -/
theorem reserved_event_argument_adaptation :
    ∀ (α : Type) (decode : α → String) (data : α),
      reservedAdapt decode "connect" data = HandlerArg.noArg ∧
      reservedAdapt decode "disconnect" data = HandlerArg.noArg ∧
      reservedAdapt decode "pong" data = HandlerArg.noArg ∧
      reservedAdapt decode "message" data = HandlerArg.text (decode data) ∧
      ∀ name : String, name ≠ "connect" → name ≠ "disconnect" → name ≠ "pong" →
        name ≠ "message" → reservedAdapt decode name data = HandlerArg.raw data := by
  intro α decode data
  refine ⟨rfl, rfl, rfl, rfl, ?_⟩
  intro name h1 h2 h3 h4
  have e1 : (name == "connect") = false := beq_eq_false_iff_ne.mpr h1
  have e2 : (name == "disconnect") = false := beq_eq_false_iff_ne.mpr h2
  have e3 : (name == "pong") = false := beq_eq_false_iff_ne.mpr h3
  have e4 : (name == "message") = false := beq_eq_false_iff_ne.mpr h4
  simp [reservedAdapt, List.lookup, e1, e2, e3, e4]

/-- C6 witness: a handler registered under the non-reserved name `"view"`
receives the raw bytes unchanged, while a `"message"` handler receives
the decoded text. -/
theorem reserved_event_argument_adaptation_witness :
    reservedAdapt (fun l : List ℕ => String.mk (l.map Char.ofNat)) "view" [104, 105] =
      HandlerArg.raw [104, 105] ∧
    reservedAdapt (fun l : List ℕ => String.mk (l.map Char.ofNat)) "message" [104, 105] =
      HandlerArg.text (String.mk ([104, 105].map Char.ofNat)) := by
  constructor
  · exact (reserved_event_argument_adaptation (List ℕ)
      (fun l => String.mk (l.map Char.ofNat)) [104, 105]).2.2.2.2 "view"
      (by decide) (by decide) (by decide) (by decide)
  · exact (reserved_event_argument_adaptation (List ℕ)
      (fun l => String.mk (l.map Char.ofNat)) [104, 105]).2.2.2.1

/-- C7.  Frames whose event name has no registration fall back to the
`default_event` no-op handler, and the delivery mode is chosen from the
declared payload length against the 256-MiB threshold: at or under
`BUFFER_LIMIT` the payload is buffered (`BYTES`), strictly over it the
payload is streamed to temporary storage (`FILE`). -/
theorem unregistered_event_default_routing :
    ∀ (events : EventTable) (name : String) (dataLen : ℕ),
      events name = none →
      routeEvent events name dataLen =
        { isDefault := true
          mode := if dataLen > BUFFER_LIMIT then DataMode.FILE else DataMode.BYTES } ∧
      (dataLen ≤ BUFFER_LIMIT →
        routeEvent events name dataLen = { isDefault := true, mode := DataMode.BYTES }) ∧
      (dataLen > BUFFER_LIMIT →
        routeEvent events name dataLen = { isDefault := true, mode := DataMode.FILE }) := by
  intro events name dataLen h
  refine ⟨?_, ?_, ?_⟩
  · simp [routeEvent, h]
  · intro hle
    simp only [routeEvent, h]
    rw [if_neg (by omega)]
  · intro hgt
    simp only [routeEvent, h]
    rw [if_pos hgt]

/-- C7 witness: with only `"big"` registered, an inbound `"view"` frame of
5 declared bytes is buffered under the default handler, and one of
`BUFFER_LIMIT + 1` declared bytes is streamed. -/
theorem unregistered_event_default_routing_witness :
    routeEvent cEvents "view" 5 = { isDefault := true, mode := DataMode.BYTES } ∧
    routeEvent cEvents "view" (BUFFER_LIMIT + 1) =
      { isDefault := true, mode := DataMode.FILE } := by
  constructor
  · exact (unregistered_event_default_routing cEvents "view" 5 (by decide)).2.1 (by decide)
  · exact (unregistered_event_default_routing cEvents "view" (BUFFER_LIMIT + 1)
      (by decide)).2.2 (by decide)

/-- C8.  Both send paths sign the SHA-512 digest of the PLAINTEXT: `send`
hashes its `data` argument before encryption, `send_file` feeds the raw
file chunks (whose concatenation is the file contents) to the running
hash; the transmitted 2048-byte signature is `pow(digest, d, n)` of that
plaintext digest.  The last conjunct makes the ciphertext-independence
explicit: replacing the cipher entirely leaves both signatures unchanged. -/
theorem signature_over_plaintext :
    ∀ (env : SendEnv) (iv : List ℕ) (event : String) (data contents : List ℕ),
      (send env iv event data).signatureBytes =
        toBytesBE 2048 (rawSign env.d env.n (env.hash data)) ∧
      (sendFile env iv event contents).signatureBytes =
        toBytesBE 2048 (rawSign env.d env.n (env.hash contents)) ∧
      ∀ encrypt2 : List ℕ → List ℕ → List ℕ,
        (send { env with encrypt := encrypt2 } iv event data).signatureBytes =
          (send env iv event data).signatureBytes ∧
        (sendFile { env with encrypt := encrypt2 } iv event contents).signatureBytes =
          (sendFile env iv event contents).signatureBytes := by
  intro env iv event data contents
  refine ⟨rfl, ?_, fun encrypt2 => ⟨rfl, rfl⟩⟩
  unfold sendFile
  rw [foldl_append_eq_join, List.nil_append, fileChunks_join]

/-- C9.  Whenever the receive loop ends with `ConnectionError`,
`create_connection` schedules the registered `disconnect` handler exactly
once more (beyond whatever the loop itself dispatched), swallows the
exception, and the `finally` block leaves the reader and writer handles
cleared. -/
theorem connection_error_teardown :
    ∀ (env : RecvEnv) (s : List ℕ) (st : ClientHandles),
      (processIncomingEvents env s).2 = ClientError.connectionError →
      createConnectionRun env s st =
        ((processIncomingEvents env s).1 ++ ["disconnect"],
          { reader := none, writer := none }, none) ∧
      (createConnectionRun env s st).1.count "disconnect" =
        (processIncomingEvents env s).1.count "disconnect" + 1 := by
  intro env s st h
  rcases hp : processIncomingEvents env s with ⟨log, er⟩
  rw [hp] at h
  simp only at h
  subst h
  constructor
  · unfold createConnectionRun
    rw [hp]
  · unfold createConnectionRun
    rw [hp]
    simp [List.count_append]

/-- C9 witness: a stream that closes immediately — the loop's very first
IV read is short, the loop dispatches nothing and raises
`ConnectionError`; teardown fires `disconnect` once and clears the
previously live handles. -/
theorem connection_error_teardown_witness :
    createConnectionRun cEnv [] { reader := some (), writer := some () } =
      (["disconnect"], { reader := none, writer := none }, none) ∧
    (createConnectionRun cEnv [] { reader := some (), writer := some () }).1.count
        "disconnect" = 1 := by
  have h := connection_error_teardown cEnv []
    { reader := some (), writer := some () } (by rfl)
  exact ⟨h.1, h.2⟩

/-- C10.  `Client.__init__` registers a default `disconnect` handler and
`Client.event` only inserts or overwrites entries, so after any sequence
of registration calls the lookup `self.events['disconnect']` on the
`ConnectionError` path always succeeds. -/
theorem disconnect_always_registered :
    ∀ regs : List (String × DataMode),
      (applyRegistrations initClientEvents regs "disconnect").isSome = true := by
  have H : ∀ (regs : List (String × DataMode)) (tbl : EventTable),
      (tbl "disconnect").isSome = true →
      (applyRegistrations tbl regs "disconnect").isSome = true := by
    intro regs
    induction regs with
    | nil => intro tbl h; exact h
    | cons r regs ih =>
      intro tbl h
      simp only [applyRegistrations, List.foldl_cons]
      apply ih
      unfold registerEvent
      by_cases hd : "disconnect" = r.1
      · simp [hd]
      · simp [hd, h]
  intro regs
  exact H regs initClientEvents (by rfl)

end SecureClient
